import Mathlib

/-!
Verification of the checkpointed PostgreSQL → Cloudflare D1 migration scripts
(`migrate-with-resume.js`, `migrate.js`, `migrate-camera-locations.js`).

The JavaScript source is shallowly embedded below.  Pure computations become
Lean functions; the stateful parts (the `migration_checkpoints` table on D1,
the destination table contents) become explicit state passing.  Remote calls
that can fail (the D1 HTTP API, the PostgreSQL fetch) are modelled by oracles
supplying the outcome of each call.  Machine integers are modelled by `Nat`:
every quantity involved (ids, counts, sizes) is a non-negative integer far
below any overflow boundary in the source's usage.
-/

/-! ### Checkpoint data model (table `migration_checkpoints`) -/

/-- `status` column: `CHECK(status IN ('pending','in_progress','completed','failed'))`. -/
inductive Status where
  | pending
  | in_progress
  | completed
  | failed
deriving DecidableEq

/-- One row of `migration_checkpoints`.  `started_at`/`completed_at` are the
textual timestamps the source writes with `new Date().toISOString()`; they are
carried opaquely.  `created_at` is a DB-side default never read by the code and
is omitted. -/
structure Checkpoint where
  id : Nat
  table_name : String
  start_id : Nat
  end_id : Nat
  records_processed : Nat
  status : Status
  error_message : Option String
  started_at : Option String
  completed_at : Option String
deriving DecidableEq

/-! ### Row data model and the row transform

`migrate-with-resume.js` fetches `id, location_id, longitude, latitude,
altitude, created_at, updated_at` for `camera_locations` (and an analogous
5-column row for `coordinate_speed_new`).  The migration logic never inspects
the payload columns, so one row type is used for every table; `REAL` payloads
are carried as opaque integers (no arithmetic is ever performed on them).

A timestamp value (`created_at`/`updated_at`) is modelled by `TSVal`:
`TSVal.null` is SQL `NULL`/JS `null` (falsy, so the transform keeps it null);
`TSVal.raw t` is any truthy non-canonical source representation (a JS `Date`
object or a parseable date string) denoting the instant `t` (epoch
milliseconds); `TSVal.iso t` is the canonical ISO-8601 string for instant `t`.
`new Date(v)` recovers the instant of either representation and
`.toISOString()` prints the canonical string, so
`v ↦ new Date(v).toISOString()` is modelled by `raw t ↦ iso t`,
`iso t ↦ iso t` (the JS `Date` round-trip property on canonical ISO strings). -/
inductive TSVal where
  | null
  | raw (t : Int)
  | iso (t : Int)
deriving DecidableEq

/-- A fetched source row (shape of the `camera_locations` select; used for
every table, see the comment above). -/
structure CameraRow where
  id : Nat
  location_id : Option String
  longitude : Int
  latitude : Int
  altitude : Option Int
  created_at : TSVal
  updated_at : TSVal
deriving DecidableEq

/-- `row.created_at ? new Date(row.created_at).toISOString() : null`
(`migrate-with-resume.js` lines 284–285, `migrate-camera-locations.js`
lines 131–132). -/
def normalizeTimestamp : TSVal → TSVal
  | TSVal.null => TSVal.null
  | TSVal.raw t => TSVal.iso t
  | TSVal.iso t => TSVal.iso t

/-- The per-row transform applied when `TABLE_NAME === 'camera_locations'`:
`{ ...row, created_at: …, updated_at: … }` — spread keeps all other fields. -/
def transformCameraRow (r : CameraRow) : CameraRow :=
  { r with
    created_at := normalizeTimestamp r.created_at
    updated_at := normalizeTimestamp r.updated_at }

/-! ### Batch sizer -/

/-- `MAX_BATCH_SIZE = Math.floor(MAX_SQL_VARIABLES / COLUMNS_COUNT)`
(`migrate.js` line 26, `migrate-camera-locations.js` line 26,
`migrate-with-resume.js` line 25).  Argument order follows the spec's
`maxBatchRows(columnCount, parameterCeiling)`. -/
def maxBatchRows (columnCount parameterCeiling : Nat) : Nat :=
  parameterCeiling / columnCount

/-- `BATCH_SIZE = Math.min(REQUESTED_BATCH_SIZE, MAX_BATCH_SIZE)`
(`migrate.js` line 28, `migrate-camera-locations.js` line 28,
`migrate-with-resume.js` line 26). -/
def effectiveBatchSize (requested maxBatch : Nat) : Nat :=
  min requested maxBatch

/-! ### Sub-batch splitting

The insert loop of `processCheckpoint` (`migrate-with-resume.js` lines
290–317): `batches = Math.ceil(rows.length / BATCH_SIZE)`; the `i`-th batch is
`rows.slice(i*BATCH_SIZE, Math.min((i+1)*BATCH_SIZE, rows.length))`.  For
`B ≥ 1` this is exactly chunking into runs of `B` with a shorter final run.
(The source would loop forever on `B = 0`; the model returns `[]` there and
all theorems assume `0 < B`.) -/
def chunksAux (B : Nat) : Nat → List CameraRow → List (List CameraRow)
  | 0, _ => []
  | _ + 1, [] => []
  | fuel + 1, x :: xs => (x :: xs).take B :: chunksAux B fuel ((x :: xs).drop B)

/-- The sub-batch list.  For `0 < B` the fuel `l.length` is more than enough:
each step removes at least one element. -/
def chunks (B : Nat) (l : List CameraRow) : List (List CameraRow) :=
  chunksAux B l.length l

/-! ### Destination Gateway: `executeD1SQL` (`migrate-with-resume.js` lines 40–86)

Each attempt makes one HTTP request whose observable outcome is one of:
a non-2xx status (`!response.ok`), a 2xx body that fails to parse as JSON,
a parsed body with `success: false`, or a successful result.  The oracle
`responses` gives the outcome of the `attempt`-th request (attempts are
numbered from 1 as in the source loop). -/

/-- Opaque stand-in for a successful D1 query result (`result.result`). -/
structure D1Result where
  payload : String
deriving DecidableEq

inductive D1Response where
  | httpError (status : Nat) (text : String)
  | nonJSON (text : String)
  | appFailure (errors : String)
  | ok (r : D1Result)
deriving DecidableEq

/-- The errors thrown inside one attempt's `try` block, structured instead of
string-formatted: `HTTP` ↦ `D1 API HTTP ${status}: …`, `nonJSONBody` ↦
`D1 API returned non-JSON response: …`, `app` ↦ `D1 API Error: …`. -/
inductive D1Error where
  | http (status : Nat) (text : String)
  | nonJSONBody (text : String)
  | app (errors : String)
deriving DecidableEq

/-- The body of one loop iteration up to the `catch`: response classification
(`migrate-with-resume.js` lines 57–74). -/
def attemptOutcome : D1Response → Except D1Error D1Result
  | D1Response.httpError s t => Except.error (D1Error.http s t)
  | D1Response.nonJSON t => Except.error (D1Error.nonJSONBody t)
  | D1Response.appFailure e => Except.error (D1Error.app e)
  | D1Response.ok r => Except.ok r

/-- The body of `for (let attempt = 1; attempt <= retries; attempt++)`,
given the list of remaining attempt numbers.  Returns the function's outcome
(`none` models the `undefined` return when the loop exits without returning,
which can happen only for `retries = 0`) together with the list of backoff
delays actually slept, in order.  On an error at the final attempt
(`attempt === retries`) the error is re-thrown as is (lines 76–78); otherwise
`delay = Math.min(1000 * 2 ** (attempt - 1), 10000)` is slept (line 80) and
the loop continues. -/
def executeD1SQLAttempts (responses : Nat → D1Response) (retries : Nat) :
    List Nat → Option (Except D1Error D1Result) × List Nat
  | [] => (none, [])
  | attempt :: rest =>
    match attemptOutcome (responses attempt) with
    | Except.ok r => (some (Except.ok r), [])
    | Except.error e =>
      if attempt = retries then (some (Except.error e), [])
      else
        let delay := min (1000 * 2 ^ (attempt - 1)) 10000
        let r2 := executeD1SQLAttempts responses retries rest
        (r2.1, delay :: r2.2)

/-- `executeD1SQL(sql, params, retries)` — the attempt counter runs over
`1, …, retries`; every call site uses the default `retries = 3`. -/
def executeD1SQL (responses : Nat → D1Response) (retries : Nat) :
    Option (Except D1Error D1Result) × List Nat :=
  executeD1SQLAttempts responses retries (List.range' 1 retries)

/-! ### Checkpoint Planner (`initializeCheckpoints`, lines 167–208) -/

/-- One step of the partition loop (lines 193–199):
`while (currentStart <= maxId) { currentEnd = Math.min(currentStart +
CHECKPOINT_SIZE - 1, maxId); push({start, end}); currentStart = currentEnd+1 }`.
`fuel` bounds the iteration count; for `0 < S` a fuel of `maxId + 1 - c`
suffices since `currentStart` advances by at least `S ≥ 1` per step.
(For `S = 0` the source loop never terminates; the model is only used with
`0 < S`.) -/
def checkpointRangesAux (S maxId : Nat) : Nat → Nat → List (Nat × Nat)
  | 0, _ => []
  | fuel + 1, c =>
    if c ≤ maxId then
      let e := min (c + S - 1) maxId
      (c, e) :: checkpointRangesAux S maxId fuel (e + 1)
    else []

/-- The full list of planned `(start_id, end_id)` windows. -/
def checkpointRanges (S minId maxId : Nat) : List (Nat × Nat) :=
  checkpointRangesAux S maxId (maxId + 1 - minId) minId

/-- `createCheckpoint` (lines 89–94): the `pending` row inserted for one
window; `id` is assigned by SQLite autoincrement, modelled by the caller
passing the next free id. -/
def mkPendingCheckpoint (tableName : String) (cpId startId endId : Nat) : Checkpoint :=
  { id := cpId
    table_name := tableName
    start_id := startId
    end_id := endId
    records_processed := 0
    status := Status.pending
    error_message := none
    started_at := none
    completed_at := none }

/-- `initializeCheckpoints(tableName, totalRecords, minId, maxId)`
(lines 167–208) as a transformer of the `migration_checkpoints` table state.
`resumeMode` is the `RESUME_MODE` flag, `S` is `CHECKPOINT_SIZE`, `nextId`
models the autoincrement counter.  `ensureCheckpointsTableExists` only issues
DDL and does not change existing rows, so it is not represented.
(`totalRecords` is only logged by the source and is not needed here.) -/
def initializeCheckpoints (resumeMode : Bool) (S : Nat) (tableName : String)
    (minId maxId nextId : Nat) (db : List Checkpoint) : List Checkpoint :=
  let existingCount := (db.filter (fun c => c.table_name = tableName)).length
  if 0 < existingCount ∧ resumeMode = true then db
  else
    let db1 :=
      if 0 < existingCount ∧ ¬resumeMode = true then
        db.filter (fun c => ¬c.table_name = tableName)
      else db
    db1 ++ (checkpointRanges S minId maxId).enum.map
      (fun p => mkPendingCheckpoint tableName (nextId + p.1) p.2.1 p.2.2)

/-! ### Checkpoint Store operations (`migrate-with-resume.js` lines 96–129)

The `migration_checkpoints` table is modelled as a `List Checkpoint`.
`executeD1SQL` calls against it are assumed to succeed (a failing status
write would itself abort the run; the claims under verification concern
failures of the data-row inserts and of the source fetch, which are
modelled by oracles below). -/

/-- The `SET` clause of `updateCheckpointStatus` (lines 97–107):
`status`, `records_processed`, `error_message` are always written; the
timestamp column is `started_at` when the new status is `in_progress` and
`completed_at` otherwise. -/
def applyStatusWrite (status : Status) (recs : Nat) (errMsg : Option String)
    (now : String) (c : Checkpoint) : Checkpoint :=
  { c with
    status := status
    records_processed := recs
    error_message := errMsg
    started_at := if status = Status.in_progress then some now else c.started_at
    completed_at := if status = Status.in_progress then c.completed_at else some now }

/-- `UPDATE migration_checkpoints SET … WHERE id = ?`. -/
def updateCheckpointStatus (db : List Checkpoint) (cpId : Nat) (status : Status)
    (recs : Nat) (errMsg : Option String) (now : String) : List Checkpoint :=
  db.map (fun c => if c.id = cpId then applyStatusWrite status recs errMsg now c else c)

/-- Insertion of one checkpoint into a list sorted by `start_id` (helper for
the `ORDER BY start_id` below). -/
def insertByStartId (c : Checkpoint) : List Checkpoint → List Checkpoint
  | [] => [c]
  | d :: ds => if c.start_id ≤ d.start_id then c :: d :: ds else d :: insertByStartId c ds

/-- Insertion sort by `start_id` (stable; SQLite's `ORDER BY start_id` returns
some order consistent with `start_id`, which is all the code relies on). -/
def sortByStartId (l : List Checkpoint) : List Checkpoint :=
  l.foldr insertByStartId []

/-- `getPendingCheckpoints` (lines 110–118): `SELECT * … WHERE table_name = ?
AND status IN ('pending','failed') ORDER BY start_id`. -/
def getPendingCheckpoints (tableName : String) (db : List Checkpoint) : List Checkpoint :=
  sortByStartId (db.filter
    (fun c => c.table_name = tableName ∧
      (c.status = Status.pending ∨ c.status = Status.failed)))

/-! ### Checkpoint Processor (`migrate-with-resume.js` lines 211–328) -/

/-- `executeBatchInsert(tableName, rows)` (lines 211–236): a D1 `INSERT` for
the two known tables, and — there being no `else` branch — a silent no-op for
every other table name.  Modelled as appending to the destination table's
row list. -/
def executeBatchInsert (tableName : String) (rows dest : List CameraRow) : List CameraRow :=
  if tableName = "coordinate_speed_new" then dest ++ rows
  else if tableName = "camera_locations" then dest ++ rows
  else dest

/-- Whether `executeBatchInsert` actually issues a D1 call (and can therefore
throw) for this table name. -/
def tableIssuesInsert (tableName : String) : Prop :=
  tableName = "coordinate_speed_new" ∨ tableName = "camera_locations"

instance (t : String) : Decidable (tableIssuesInsert t) := by
  unfold tableIssuesInsert; infer_instance

/-- The sub-batch insert loop (lines 293–317).  `oracle i = some msg` means
the D1 call for the `i`-th sub-batch fails (after `executeD1SQL`'s internal
retries) with message `msg`; `none` means it succeeds.  For a table name with
no `executeBatchInsert` branch no D1 call is made, so no failure can occur.
Returns (destination rows, `recordsProcessed`, sizes of the sub-batches whose
insert call succeeded, error of the failing call if any).  The 200 ms
rate-limit pause and the keepalive ping (lines 304–316) have no observable
effect here and are omitted. -/
def insertBatches (tableName : String) (oracle : Nat → Option String) :
    List (List CameraRow) → List CameraRow → Nat → Nat →
    List CameraRow × Nat × List Nat × Option String
  | [], dest, _, acc => (dest, acc, [], none)
  | b :: rest, dest, i, acc =>
    if tableIssuesInsert tableName then
      match oracle i with
      | some msg => (dest, acc, [], some msg)
      | none =>
        let r := insertBatches tableName oracle rest
          (executeBatchInsert tableName b dest) (i + 1) (acc + b.length)
        (r.1, r.2.1, b.length :: r.2.2.1, r.2.2.2)
    else
      let r := insertBatches tableName oracle rest
        (executeBatchInsert tableName b dest) (i + 1) (acc + b.length)
      (r.1, r.2.1, r.2.2.1, r.2.2.2)

/-- One record of a call to `updateCheckpointStatus` made while processing a
checkpoint (all such calls target the processed checkpoint's id). -/
structure StatusWrite where
  status : Status
  records : Nat
  errMsg : Option String
deriving DecidableEq

/-- Combined mutable state: the `migration_checkpoints` table and the
destination data table. -/
structure MigState where
  checkpoints : List Checkpoint
  dest : List CameraRow
deriving DecidableEq

/-- Result of `processCheckpoint`: the new state, the trace of checkpoint
status writes (in order), the sizes of the successfully inserted sub-batches,
and the function's outcome (`Except.ok recordsProcessed`, or the re-thrown
error). -/
structure ProcResult where
  db : List Checkpoint
  dest : List CameraRow
  writes : List StatusWrite
  sent : List Nat
  returned : Except String Nat

/-- `processCheckpoint(pgClient, checkpoint)` (lines 239–328).
`fetchResult` is the outcome of the PostgreSQL range query (lines 264–269);
`oracle` injects sub-batch insert failures.  The connection liveness probes
change no modelled state and are omitted.  Every error raised inside the
`try` block lands in the `catch` (lines 323–327), which writes
`('failed', 0, error.message)` and re-throws. -/
def processCheckpoint (tableName : String) (B : Nat)
    (fetchResult : Except String (List CameraRow)) (oracle : Nat → Option String)
    (now : String) (st : MigState) (cp : Checkpoint) : ProcResult :=
  let db1 := updateCheckpointStatus st.checkpoints cp.id Status.in_progress 0 none now
  let w1 : StatusWrite := ⟨Status.in_progress, 0, none⟩
  match fetchResult with
  | Except.error e =>
    { db := updateCheckpointStatus db1 cp.id Status.failed 0 (some e) now
      dest := st.dest
      writes := [w1, ⟨Status.failed, 0, some e⟩]
      sent := []
      returned := Except.error e }
  | Except.ok rows =>
    if rows.length = 0 then
      { db := updateCheckpointStatus db1 cp.id Status.completed 0 none now
        dest := st.dest
        writes := [w1, ⟨Status.completed, 0, none⟩]
        sent := []
        returned := Except.ok 0 }
    else
      let processedRows :=
        if tableName = "camera_locations" then rows.map transformCameraRow else rows
      let r := insertBatches tableName oracle (chunks B processedRows) st.dest 0 0
      match r.2.2.2 with
      | none =>
        { db := updateCheckpointStatus db1 cp.id Status.completed r.2.1 none now
          dest := r.1
          writes := [w1, ⟨Status.completed, r.2.1, none⟩]
          sent := r.2.2.1
          returned := Except.ok r.2.1 }
      | some msg =>
        { db := updateCheckpointStatus db1 cp.id Status.failed 0 (some msg) now
          dest := r.1
          writes := [w1, ⟨Status.failed, 0, some msg⟩]
          sent := r.2.2.1
          returned := Except.error msg }

/-- The processing loop of `migrateData` (lines 464–472) over the pending
checkpoint list, threading the state and summing the returned counts.  A
thrown error ends the loop (the `catch` at lines 490–494 exits the process
with a non-zero code), producing `Except.error`. -/
def runLoop (tableName : String) (B : Nat) (now : String)
    (fetch : Checkpoint → Except String (List CameraRow))
    (oracle : Checkpoint → Nat → Option String) :
    List Checkpoint → MigState → Nat → MigState × Except String Nat
  | [], st, total => (st, Except.ok total)
  | cp :: rest, st, total =>
    let r := processCheckpoint tableName B (fetch cp) (oracle cp) now st cp
    match r.returned with
    | Except.ok n => runLoop tableName B now fetch oracle rest ⟨r.db, r.dest⟩ (total + n)
    | Except.error e => (⟨r.db, r.dest⟩, Except.error e)

/-! ### Sample data for concrete scenarios -/

/-- A concrete fetched row with id `i` (payload arbitrary but fixed;
`created_at` present and non-canonical, `updated_at` null). -/
def sampleRow (i : Nat) : CameraRow :=
  { id := i
    location_id := some "loc"
    longitude := 106
    latitude := 10
    altitude := none
    created_at := TSVal.raw 1700000000000
    updated_at := TSVal.null }

/-- The rows of the inclusive id range `[lo, hi]`, in id order (what the
source's `WHERE id >= $1 AND id <= $2 ORDER BY id` returns on a dense table). -/
def rowsRange (lo hi : Nat) : List CameraRow :=
  (List.range' lo (hi + 1 - lo)).map sampleRow

/-- The two checkpoints planned for the spec's concrete 35-row
`camera_locations` scenario (ids assigned 1 and 2). -/
def cpA : Checkpoint := mkPendingCheckpoint "camera_locations" 1 1 20

def cpB : Checkpoint := mkPendingCheckpoint "camera_locations" 2 21 35

/-- Initial state for the concrete scenario: the two planned checkpoints,
empty destination table. -/
def stAB : MigState := ⟨[cpA, cpB], []⟩

/-- Insert oracle making the first sub-batch succeed and every later one
fail. -/
def failSecondBatch : Nat → Option String :=
  fun i => if i = 0 then none else some "D1 API Error"

/-- A one-checkpoint state used to exercise the run loop with a failing
source fetch. -/
def demoCheckpoint : Checkpoint := mkPendingCheckpoint "camera_locations" 7 1 5

def demoState : MigState := ⟨[demoCheckpoint], []⟩

/-- A run over `demoState` whose (only) checkpoint's source fetch fails. -/
def demoRun : MigState × Except String Nat :=
  runLoop "camera_locations" 16 "T" (fun _ => Except.error "boom") (fun _ _ => none)
    (getPendingCheckpoints "camera_locations" demoState.checkpoints) demoState 0

/-- Processing the first scenario checkpoint `[1,20]` with no failures. -/
def procA : ProcResult :=
  processCheckpoint "camera_locations" 16 (Except.ok (rowsRange 1 20)) (fun _ => none)
    "T" stAB cpA

/-- Processing the second scenario checkpoint `[21,35]` from the state left
by `procA`, with no failures. -/
def procB : ProcResult :=
  processCheckpoint "camera_locations" 16 (Except.ok (rowsRange 21 35)) (fun _ => none)
    "T" ⟨procA.db, procA.dest⟩ cpB

/-- A completed checkpoint row (for state-machine scenarios). -/
def doneCheckpoint : Checkpoint :=
  { id := 8
    table_name := "camera_locations"
    start_id := 6
    end_id := 10
    records_processed := 5
    status := Status.completed
    error_message := none
    started_at := some "T0"
    completed_at := some "T1" }

/-- A state holding one eligible and one completed checkpoint. -/
def stMixed : MigState := ⟨[demoCheckpoint, doneCheckpoint], []⟩

/-! ## Theorems -/

/-- **C6**: the maximum batch size is `floor(parameterCeiling / columnCount)`
— in particular `maxBatchRows 5 99 = 19` and `maxBatchRows 6 99 = 16` — and
the effective batch size is `min(requested, maximum)`, so a request above the
maximum is clamped to it rather than rejected. -/
theorem batch_size_clamp :
    maxBatchRows 5 99 = 19 ∧ maxBatchRows 6 99 = 16 ∧
    (∀ requested columnCount ceiling,
      effectiveBatchSize requested (maxBatchRows columnCount ceiling) =
        min requested (maxBatchRows columnCount ceiling)) ∧
    (∀ requested columnCount ceiling,
      maxBatchRows columnCount ceiling ≤ requested →
        effectiveBatchSize requested (maxBatchRows columnCount ceiling) =
          maxBatchRows columnCount ceiling) := by
  refine ⟨rfl, rfl, fun _ _ _ => rfl, fun r c v h => ?_⟩
  simp [effectiveBatchSize, Nat.min_eq_right h]

/-- Witness for `batch_size_clamp`: a request of 50 against the 6-column
ceiling-99 maximum is clamped to 16. -/
theorem batch_size_clamp_witness :
    maxBatchRows 6 99 ≤ 50 ∧
    effectiveBatchSize 50 (maxBatchRows 6 99) = maxBatchRows 6 99 :=
  ⟨by decide, batch_size_clamp.2.2.2 50 6 99 (by decide)⟩

/-- **C7**: the row transform is idempotent — `transform (transform r) =
transform r`; a timestamp already in canonical ISO form maps to itself, a
null timestamp stays null, and all non-timestamp fields pass through
unchanged. -/
theorem transform_idempotent (r : CameraRow) :
    transformCameraRow (transformCameraRow r) = transformCameraRow r ∧
    (∀ t, r.created_at = TSVal.iso t → (transformCameraRow r).created_at = TSVal.iso t) ∧
    (∀ t, r.updated_at = TSVal.iso t → (transformCameraRow r).updated_at = TSVal.iso t) ∧
    (r.created_at = TSVal.null → (transformCameraRow r).created_at = TSVal.null) ∧
    (r.updated_at = TSVal.null → (transformCameraRow r).updated_at = TSVal.null) ∧
    (transformCameraRow r).id = r.id ∧
    (transformCameraRow r).location_id = r.location_id ∧
    (transformCameraRow r).longitude = r.longitude ∧
    (transformCameraRow r).latitude = r.latitude ∧
    (transformCameraRow r).altitude = r.altitude := by
  obtain ⟨i, lid, lon, lat, alt, ca, ua⟩ := r
  cases ca <;> cases ua <;>
    simp [transformCameraRow, normalizeTimestamp]

/-- Witness for `transform_idempotent` at a concrete row whose `created_at`
is already canonical and whose `updated_at` is null. -/
theorem transform_idempotent_witness :
    transformCameraRow (transformCameraRow ⟨1, some "a", 2, 3, none, TSVal.iso 5, TSVal.null⟩) =
      transformCameraRow ⟨1, some "a", 2, 3, none, TSVal.iso 5, TSVal.null⟩ ∧
    (transformCameraRow ⟨1, some "a", 2, 3, none, TSVal.iso 5, TSVal.null⟩).created_at =
      TSVal.iso 5 ∧
    (transformCameraRow ⟨1, some "a", 2, 3, none, TSVal.iso 5, TSVal.null⟩).updated_at =
      TSVal.null :=
  ⟨(transform_idempotent _).1,
   (transform_idempotent _).2.1 5 rfl,
   (transform_idempotent _).2.2.2.2.1 rfl⟩

/-- **C8**: running the Planner with `resumeMode = true` when at least one
checkpoint row for the table already exists is a no-op on checkpoint state:
the table of checkpoints is returned unchanged. -/
theorem resume_planner_noop (rm : Bool) (S : Nat) (t : String)
    (minId maxId nextId : Nat) (db : List Checkpoint)
    (hex : 0 < (db.filter (fun c => c.table_name = t)).length)
    (hrm : rm = true) :
    initializeCheckpoints rm S t minId maxId nextId db = db := by
  simp [initializeCheckpoints, hex, hrm]

/-- Witness for `resume_planner_noop`: one existing checkpoint, resume mode
on. -/
theorem resume_planner_noop_witness :
    0 < (([mkPendingCheckpoint "tbl" 1 1 10]).filter
      (fun c => c.table_name = "tbl")).length ∧
    initializeCheckpoints true 100 "tbl" 1 10 2 [mkPendingCheckpoint "tbl" 1 1 10] =
      [mkPendingCheckpoint "tbl" 1 1 10] :=
  ⟨by decide, resume_planner_noop true 100 "tbl" 1 10 2 _ (by decide) rfl⟩

/-- **C4**: `executeD1SQL` makes at most 3 attempts; every kind of failure
(non-2xx HTTP status, non-JSON body, `success:false`) is retried identically;
the delay before the k-th retry is `min(1000·2^(k-1), 10000)` ms (1000 then
2000 here, the cap being unreachable within 3 attempts); and after the 3rd
failed attempt the last error propagates unmodified.  Stated as an exhaustive
case analysis over the outcomes of the three possible attempts. -/
theorem d1_retry_policy (responses : Nat → D1Response) :
    (executeD1SQL responses 3).2.length ≤ 2 ∧
    (executeD1SQL responses 3).2 =
      (List.range (executeD1SQL responses 3).2.length).map
        (fun k => min (1000 * 2 ^ k) 10000) ∧
    (∀ r, attemptOutcome (responses 1) = Except.ok r →
      executeD1SQL responses 3 = (some (Except.ok r), [])) ∧
    (∀ e1 r, attemptOutcome (responses 1) = Except.error e1 →
      attemptOutcome (responses 2) = Except.ok r →
      executeD1SQL responses 3 = (some (Except.ok r), [1000])) ∧
    (∀ e1 e2 r, attemptOutcome (responses 1) = Except.error e1 →
      attemptOutcome (responses 2) = Except.error e2 →
      attemptOutcome (responses 3) = Except.ok r →
      executeD1SQL responses 3 = (some (Except.ok r), [1000, 2000])) ∧
    (∀ e1 e2 e3, attemptOutcome (responses 1) = Except.error e1 →
      attemptOutcome (responses 2) = Except.error e2 →
      attemptOutcome (responses 3) = Except.error e3 →
      executeD1SQL responses 3 = (some (Except.error e3), [1000, 2000])) := by
  have hr : List.range' 1 3 = [1, 2, 3] := rfl
  rcases h1 : attemptOutcome (responses 1) with e1 | r1 <;>
    rcases h2 : attemptOutcome (responses 2) with e2 | r2 <;>
      rcases h3 : attemptOutcome (responses 3) with e3 | r3 <;>
        refine ⟨?_, ?_, ?_, ?_, ?_, ?_⟩ <;>
          simp [executeD1SQL, hr, executeD1SQLAttempts, h1, h2, h3, List.range_succ]

/-- Witness for `d1_retry_policy`: three failing attempts of three different
kinds; the third attempt's error is returned and the delays were 1000 ms then
2000 ms. -/
theorem d1_retry_policy_witness :
    executeD1SQL (fun n => if n = 1 then D1Response.httpError 500 "x"
      else if n = 2 then D1Response.nonJSON "y" else D1Response.appFailure "z") 3 =
      (some (Except.error (D1Error.app "z")), [1000, 2000]) :=
  (d1_retry_policy _).2.2.2.2.2 (D1Error.http 500 "x") (D1Error.nonJSONBody "y")
    (D1Error.app "z") rfl rfl rfl

/-- The partition loop never runs once `currentStart` exceeds `maxId`. -/
theorem checkpointRangesAux_stop (S maxId fuel c : Nat) (h : maxId < c) :
    checkpointRangesAux S maxId fuel c = [] := by
  cases fuel <;> simp [checkpointRangesAux, Nat.not_le.mpr h]

/-- Full characterisation of the partition loop, by induction on the fuel:
count, bounds, widths, contiguity, disjointness, first start, last end,
coverage. -/
theorem checkpointRangesAux_spec (S maxId : Nat) (hS : 0 < S) :
    ∀ fuel c, c ≤ maxId → maxId + 1 - c ≤ fuel →
      (checkpointRangesAux S maxId fuel c).length = (maxId + 1 - c + S - 1) / S ∧
      (∀ p ∈ checkpointRangesAux S maxId fuel c,
        c ≤ p.1 ∧ p.1 ≤ p.2 ∧ p.2 ≤ maxId ∧ p.2 + 1 - p.1 ≤ S) ∧
      List.Chain' (fun p q => q.1 = p.2 + 1) (checkpointRangesAux S maxId fuel c) ∧
      List.Pairwise (fun p q => p.2 < q.1) (checkpointRangesAux S maxId fuel c) ∧
      (∀ p ∈ (checkpointRangesAux S maxId fuel c).dropLast, p.2 + 1 - p.1 = S) ∧
      (∃ hd, (checkpointRangesAux S maxId fuel c).head? = some hd ∧ hd.1 = c) ∧
      (∃ lst, (checkpointRangesAux S maxId fuel c).getLast? = some lst ∧ lst.2 = maxId) ∧
      (∀ x, c ≤ x → x ≤ maxId →
        ∃ p ∈ checkpointRangesAux S maxId fuel c, p.1 ≤ x ∧ x ≤ p.2) := by
  intro fuel
  induction fuel with
  | zero => intro c hc hf; exfalso; omega
  | succ fuel ih =>
    intro c hc hf
    simp only [checkpointRangesAux, if_pos hc]
    rcases le_or_lt maxId (c + S - 1) with hA | hB
    · -- final window: `currentEnd = maxId`, the loop then stops
      rw [Nat.min_eq_right hA, checkpointRangesAux_stop S maxId fuel (maxId + 1) (by omega)]
      refine ⟨?_, ?_, ?_, ?_, ?_, ?_, ?_, ?_⟩
      · have hnum : maxId + 1 - c + S - 1 = (maxId + 1 - c - 1) + S := by omega
        rw [hnum, Nat.add_div_right _ hS, Nat.div_eq_of_lt (by omega)]
        rfl
      · intro p hp
        simp only [List.mem_singleton] at hp
        subst hp
        refine ⟨Nat.le_refl c, hc, Nat.le_refl maxId, by omega⟩
      · simp
      · simp
      · simp
      · exact ⟨(c, maxId), rfl, rfl⟩
      · exact ⟨(c, maxId), rfl, rfl⟩
      · intro x hx1 hx2
        exact ⟨(c, maxId), List.mem_singleton.mpr rfl, hx1, hx2⟩
    · -- full-width window, the loop continues at `c + S`
      have hmin : min (c + S - 1) maxId = c + S - 1 := Nat.min_eq_left (Nat.le_of_lt hB)
      have hsucc : c + S - 1 + 1 = c + S := by omega
      have hcs : c + S ≤ maxId := by omega
      rw [hmin, hsucc]
      obtain ⟨ihlen, ihmem, ihchain, ihpair, ihwid, ⟨hd, hhd, hhd1⟩, ihlast, ihcov⟩ :=
        ih (c + S) hcs (by omega)
      cases hrest : checkpointRangesAux S maxId fuel (c + S) with
      | nil => rw [hrest] at hhd; simp at hhd
      | cons a tl =>
        rw [hrest] at ihlen ihmem ihchain ihpair ihwid hhd ihlast ihcov
        have ha1 : a.1 = c + S := by
          simp only [List.head?_cons, Option.some.injEq] at hhd
          rw [hhd]
          exact hhd1
        refine ⟨?_, ?_, ?_, ?_, ?_, ?_, ?_, ?_⟩
        · have hnum : maxId + 1 - c + S - 1 = (maxId + 1 - (c + S) + S - 1) + S := by omega
          rw [hnum, Nat.add_div_right _ hS]
          simp only [List.length_cons, ihlen]
        · intro p hp
          rcases List.mem_cons.mp hp with hp | hp
          · subst hp
            exact ⟨Nat.le_refl c, by omega, by omega, by omega⟩
          · obtain ⟨h1, h2, h3, h4⟩ := ihmem p hp
            exact ⟨by omega, h2, h3, h4⟩
        · exact List.chain'_cons.mpr ⟨by omega, ihchain⟩
        · refine List.pairwise_cons.mpr ⟨?_, ihpair⟩
          intro q hq
          have := (ihmem q hq).1
          omega
        · intro p hp
          rw [List.dropLast_cons₂] at hp
          rcases List.mem_cons.mp hp with hp | hp
          · subst hp; omega
          · exact ihwid p hp
        · exact ⟨(c, c + S - 1), rfl, rfl⟩
        · obtain ⟨lst, hlst, hlst2⟩ := ihlast
          exact ⟨lst, by rw [List.getLast?_cons_cons]; exact hlst, hlst2⟩
        · intro x hx1 hx2
          rcases le_or_lt x (c + S - 1) with hxe | hxe
          · exact ⟨(c, c + S - 1), List.mem_cons_self _ _, hx1, hxe⟩
          · obtain ⟨p, hp, hp1, hp2⟩ := ihcov x (by omega) hx2
            exact ⟨p, List.mem_cons_of_mem _ hp, hp1, hp2⟩

/-- **C1**: on a table with rows spanning `[minId, maxId]` (so `N > 0`),
planning with checkpoint size `S` creates exactly
`ceil((maxId - minId + 1) / S) = (maxId - minId + S) / S` pending checkpoints
whose inclusive ranges are contiguous, non-overlapping, in increasing
`start_id` order, cover exactly `[minId, maxId]`, and all have width `S`
except possibly the last, which is no wider than `S`. -/
theorem planner_partition (rm : Bool) (S : Nat) (t : String)
    (minId maxId nextId : Nat) (cps : List Checkpoint) (r : List (Nat × Nat))
    (hS : 0 < S) (hm : minId ≤ maxId)
    (hcps : cps = initializeCheckpoints rm S t minId maxId nextId [])
    (hr : r = cps.map (fun c => (c.start_id, c.end_id))) :
    cps.length = (maxId - minId + S) / S ∧
    (∀ c ∈ cps, c.status = Status.pending ∧ c.table_name = t ∧
      c.records_processed = 0) ∧
    (∀ p ∈ r, p.1 ≤ p.2 ∧ p.2 + 1 - p.1 ≤ S) ∧
    List.Chain' (fun p q => q.1 = p.2 + 1) r ∧
    List.Pairwise (fun p q => p.2 < q.1) r ∧
    (∀ p ∈ r.dropLast, p.2 + 1 - p.1 = S) ∧
    (∃ hd, r.head? = some hd ∧ hd.1 = minId) ∧
    (∃ lst, r.getLast? = some lst ∧ lst.2 = maxId) ∧
    (∀ x, minId ≤ x → x ≤ maxId → ∃ p ∈ r, p.1 ≤ x ∧ x ≤ p.2) := by
  subst hr
  subst hcps
  have hform : initializeCheckpoints rm S t minId maxId nextId [] =
      (checkpointRanges S minId maxId).enum.map
        (fun p => mkPendingCheckpoint t (nextId + p.1) p.2.1 p.2.2) := by
    simp [initializeCheckpoints]
  rw [hform]
  have hmap : ((checkpointRanges S minId maxId).enum.map
      (fun p => mkPendingCheckpoint t (nextId + p.1) p.2.1 p.2.2)).map
      (fun c => (c.start_id, c.end_id)) = checkpointRanges S minId maxId := by
    rw [List.map_map]
    exact List.enum_map_snd _
  rw [hmap]
  obtain ⟨hlen, hmem, hchain, hpair, hwid, hhead, hlast, hcov⟩ :=
    checkpointRangesAux_spec S maxId hS (maxId + 1 - minId) minId hm (Nat.le_refl _)
  rw [show checkpointRangesAux S maxId (maxId + 1 - minId) minId =
    checkpointRanges S minId maxId from rfl] at hlen hmem hchain hpair hwid hhead hlast hcov
  refine ⟨?_, ?_, ?_, hchain, hpair, hwid, hhead, hlast, hcov⟩
  · rw [List.length_map, List.enum_length, hlen]
    congr 1
    omega
  · intro c hc
    obtain ⟨p, _, rfl⟩ := List.mem_map.mp hc
    exact ⟨rfl, rfl, rfl⟩
  · intro p hp
    obtain ⟨_, h2, _, h4⟩ := hmem p hp
    exact ⟨h2, h4⟩

/-- Witness for `planner_partition`: the spec's concrete scenario — ids 1–35,
checkpoint size 20 — yields 2 checkpoints with ranges `[1,20]`, `[21,35]`. -/
theorem planner_partition_witness :
    (initializeCheckpoints true 20 "camera_locations" 1 35 1 []).length = 2 ∧
    (∃ hd, ((initializeCheckpoints true 20 "camera_locations" 1 35 1 []).map
      (fun c => (c.start_id, c.end_id))).head? = some hd ∧ hd.1 = 1) :=
  ⟨(planner_partition true 20 "camera_locations" 1 35 1 _ _ (by decide) (by decide)
      rfl rfl).1,
   (planner_partition true 20 "camera_locations" 1 35 1 _ _ (by decide) (by decide)
      rfl rfl).2.2.2.2.2.2.1⟩

/-- Concatenating the sub-batches gives back the row list (soundness of the
slice loop's chunking, for positive batch size and sufficient fuel). -/
theorem chunksAux_flatten (B : Nat) (hB : 0 < B) :
    ∀ fuel l, l.length ≤ fuel → (chunksAux B fuel l).flatten = l := by
  intro fuel
  induction fuel with
  | zero =>
    intro l hl
    rw [Nat.le_zero, List.length_eq_zero] at hl
    subst hl
    rfl
  | succ fuel ih =>
    intro l hl
    cases l with
    | nil => rfl
    | cons x xs =>
      simp only [List.length_cons] at hl
      simp only [chunksAux, List.flatten_cons]
      rw [ih ((x :: xs).drop B) (by rw [List.length_drop, List.length_cons]; omega)]
      exact List.take_append_drop B (x :: xs)

theorem chunks_flatten (B : Nat) (hB : 0 < B) (l : List CameraRow) :
    (chunks B l).flatten = l :=
  chunksAux_flatten B hB l.length l (Nat.le_refl _)

/-- `executeBatchInsert` appends the rows exactly when the table has an
insert branch, and is the identity otherwise. -/
theorem executeBatchInsert_eq (t : String) (b dest : List CameraRow) :
    executeBatchInsert t b dest = if tableIssuesInsert t then dest ++ b else dest := by
  unfold executeBatchInsert tableIssuesInsert
  by_cases h1 : t = "coordinate_speed_new"
  · simp [h1]
  · by_cases h2 : t = "camera_locations" <;> simp [h1, h2]

/-- The batch loop when no insert call fails. -/
theorem insertBatches_ok (t : String) (oracle : Nat → Option String)
    (h : ∀ j, oracle j = none) :
    ∀ (bs : List (List CameraRow)) (dest : List CameraRow) (i acc : Nat),
      insertBatches t oracle bs dest i acc =
        ((if tableIssuesInsert t then dest ++ bs.flatten else dest),
         acc + (bs.map List.length).sum,
         (if tableIssuesInsert t then bs.map List.length else []), none) := by
  intro bs
  induction bs with
  | nil =>
    intro dest i acc
    by_cases ht : tableIssuesInsert t <;> simp [insertBatches, ht]
  | cons b rest ih =>
    intro dest i acc
    by_cases ht : tableIssuesInsert t
    · simp only [insertBatches, if_pos ht, h i]
      rw [ih, executeBatchInsert_eq, if_pos ht]
      simp [ht, Nat.add_assoc]
    · simp only [insertBatches, if_neg ht]
      rw [ih, executeBatchInsert_eq, if_neg ht]
      simp [ht, Nat.add_assoc]

/-- The batch loop for a table with no insert branch: nothing is sent, no
failure is possible, yet `recordsProcessed` still accumulates every batch's
length. -/
theorem insertBatches_noop (t : String) (oracle : Nat → Option String)
    (ht : ¬tableIssuesInsert t) :
    ∀ (bs : List (List CameraRow)) (dest : List CameraRow) (i acc : Nat),
      insertBatches t oracle bs dest i acc =
        (dest, acc + (bs.map List.length).sum, [], none) := by
  intro bs
  induction bs with
  | nil => intro dest i acc; simp [insertBatches]
  | cons b rest ih =>
    intro dest i acc
    simp only [insertBatches, if_neg ht]
    rw [ih, executeBatchInsert_eq, if_neg ht]
    simp [Nat.add_assoc]

/-- The batch loop when the `j`-th insert call fails after `j` successful
ones: the first `j` batches' rows are in the destination, the loop aborts
with the call's error, and the accumulated count covers only those `j`
batches. -/
theorem insertBatches_fail (t : String) (oracle : Nat → Option String)
    (ht : tableIssuesInsert t) :
    ∀ (bs : List (List CameraRow)) (dest : List CameraRow) (i acc j : Nat) (m : String),
      j < bs.length → oracle (i + j) = some m → (∀ k < j, oracle (i + k) = none) →
      insertBatches t oracle bs dest i acc =
        (dest ++ (bs.take j).flatten,
         acc + ((bs.take j).map List.length).sum,
         (bs.take j).map List.length, some m) := by
  intro bs
  induction bs with
  | nil => intro dest i acc j m hj; exact absurd hj (by simp)
  | cons b rest ih =>
    intro dest i acc j m hj horacle hprev
    cases j with
    | zero =>
      simp only [Nat.add_zero] at horacle
      simp [insertBatches, if_pos ht, horacle]
    | succ j =>
      have h0 : oracle i = none := by
        have := hprev 0 (Nat.succ_pos j)
        simpa using this
      simp only [insertBatches, if_pos ht, h0]
      rw [executeBatchInsert_eq, if_pos ht,
        ih (dest ++ b) (i + 1) (acc + b.length) j m (by simpa using hj)
          (by rw [show i + 1 + j = i + (j + 1) from by omega]; exact horacle)
          (fun k hk => by
            rw [show i + 1 + k = i + (k + 1) from by omega]
            exact hprev (k + 1) (by omega))]
      simp [List.append_assoc, Nat.add_assoc]

/-- A status write never changes the row's identity columns. -/
theorem applyStatusWrite_id (s : Status) (rcs : Nat) (em : Option String)
    (now : String) (c : Checkpoint) :
    (applyStatusWrite s rcs em now c).id = c.id ∧
    (applyStatusWrite s rcs em now c).table_name = c.table_name ∧
    (applyStatusWrite s rcs em now c).start_id = c.start_id ∧
    (applyStatusWrite s rcs em now c).end_id = c.end_id :=
  ⟨rfl, rfl, rfl, rfl⟩

/-- `UPDATE … WHERE id = ?` leaves rows with a different id untouched. -/
theorem update_mem_ne (db : List Checkpoint) (i : Nat) (s : Status) (rcs : Nat)
    (em : Option String) (now : String) (c : Checkpoint)
    (hmem : c ∈ db) (hne : c.id ≠ i) :
    c ∈ updateCheckpointStatus db i s rcs em now :=
  List.mem_map.mpr ⟨c, hmem, by simp [hne]⟩

/-- `UPDATE … WHERE id = ?` rewrites every row whose id matches. -/
theorem update_mem_eq (db : List Checkpoint) (i : Nat) (s : Status) (rcs : Nat)
    (em : Option String) (now : String) (c : Checkpoint)
    (hmem : c ∈ db) (heq : c.id = i) :
    applyStatusWrite s rcs em now c ∈ updateCheckpointStatus db i s rcs em now :=
  List.mem_map.mpr ⟨c, hmem, by simp [heq]⟩

/-- `processCheckpoint` touches only the row(s) with the processed
checkpoint's id. -/
theorem processCheckpoint_mem_ne (t : String) (B : Nat)
    (fr : Except String (List CameraRow)) (oracle : Nat → Option String)
    (now : String) (st : MigState) (cp : Checkpoint) (c : Checkpoint)
    (hmem : c ∈ st.checkpoints) (hne : c.id ≠ cp.id) :
    c ∈ (processCheckpoint t B fr oracle now st cp).db := by
  have h1 := update_mem_ne st.checkpoints cp.id Status.in_progress 0 none now c hmem hne
  cases fr with
  | error e =>
    simpa [processCheckpoint] using
      update_mem_ne _ cp.id Status.failed 0 (some e) now c h1 hne
  | ok rows =>
    by_cases h0 : rows.length = 0
    · simpa [processCheckpoint, h0] using
        update_mem_ne _ cp.id Status.completed 0 none now c h1 hne
    · simp only [processCheckpoint, if_neg h0]
      cases hI : (insertBatches t oracle
          (chunks B (if t = "camera_locations" then rows.map transformCameraRow else rows))
          st.dest 0 0).2.2.2 with
      | none =>
        simpa [hI] using update_mem_ne _ cp.id Status.completed _ none now c h1 hne
      | some m =>
        simpa [hI] using update_mem_ne _ cp.id Status.failed 0 (some m) now c h1 hne

/-- When `processCheckpoint` re-throws an error `e`, the processed
checkpoint's row has been rewritten to
`(status, records_processed, error_message) = (failed, 0, some e)` —
with its identity columns intact — before the error propagates. -/
theorem processCheckpoint_failed_row (t : String) (B : Nat)
    (fr : Except String (List CameraRow)) (oracle : Nat → Option String)
    (now : String) (st : MigState) (cp : Checkpoint) (e : String)
    (hmem : cp ∈ st.checkpoints)
    (hret : (processCheckpoint t B fr oracle now st cp).returned = Except.error e) :
    ∃ c' ∈ (processCheckpoint t B fr oracle now st cp).db,
      c'.id = cp.id ∧ c'.table_name = cp.table_name ∧
      c'.start_id = cp.start_id ∧ c'.end_id = cp.end_id ∧
      c'.status = Status.failed ∧ c'.records_processed = 0 ∧
      c'.error_message = some e := by
  have h1 := update_mem_eq st.checkpoints cp.id Status.in_progress 0 none now cp hmem rfl
  cases fr with
  | error e0 =>
    have he : e0 = e := by
      simpa [processCheckpoint] using hret
    subst he
    exact ⟨_, update_mem_eq _ cp.id Status.failed 0 (some e0) now _ h1 rfl,
      rfl, rfl, rfl, rfl, rfl, rfl, rfl⟩
  | ok rows =>
    by_cases h0 : rows.length = 0
    · exact absurd hret (by simp [processCheckpoint, h0])
    · simp only [processCheckpoint, if_neg h0] at hret ⊢
      cases hI : (insertBatches t oracle
          (chunks B (if t = "camera_locations" then rows.map transformCameraRow else rows))
          st.dest 0 0).2.2.2 with
      | none => rw [hI] at hret; exact absurd hret (by simp)
      | some m =>
        rw [hI] at hret
        have he : m = e := by simpa using hret
        subst he
        exact ⟨_, update_mem_eq _ cp.id Status.failed 0 (some m) now _ h1 rfl,
          rfl, rfl, rfl, rfl, rfl, rfl, rfl⟩

/-- Inserting into the sorted list is a permutation of consing. -/
theorem insertByStartId_perm (c : Checkpoint) :
    ∀ l : List Checkpoint, (insertByStartId c l).Perm (c :: l) := by
  intro l
  induction l with
  | nil => exact List.Perm.refl _
  | cons d ds ih =>
    by_cases h : c.start_id ≤ d.start_id
    · simp [insertByStartId, h]
    · simp only [insertByStartId, if_neg h]
      exact (ih.cons d).trans (List.Perm.swap _ _ _)

/-- The insertion sort used for `ORDER BY start_id` is a permutation. -/
theorem sortByStartId_perm : ∀ l : List Checkpoint, (sortByStartId l).Perm l := by
  intro l
  induction l with
  | nil => exact List.Perm.refl _
  | cons d ds ih =>
    exact (insertByStartId_perm d (sortByStartId ds)).trans (ih.cons d)

/-- Membership characterisation of `getPendingCheckpoints`: exactly the
rows of the table with status `pending` or `failed`. -/
theorem mem_getPendingCheckpoints (t : String) (db : List Checkpoint) (c : Checkpoint) :
    c ∈ getPendingCheckpoints t db ↔
      c ∈ db ∧ c.table_name = t ∧
      (c.status = Status.pending ∨ c.status = Status.failed) := by
  unfold getPendingCheckpoints
  rw [(sortByStartId_perm _).mem_iff, List.mem_filter]
  simp

/-- Distinct rows of a table whose mapped ids are `Nodup` have distinct
ids. -/
theorem ne_id_of_nodup (l : List Checkpoint)
    (h : (l.map Checkpoint.id).Nodup) (a b : Checkpoint)
    (ha : a ∈ l) (hb : b ∈ l) (hne : a ≠ b) : a.id ≠ b.id :=
  fun hid => hne (List.inj_on_of_nodup_map h ha hb hid)

/-- **C9**: statuses move only along `pending → in_progress`,
`failed → in_progress`, `in_progress → completed` and
`in_progress → failed`: (1) only `pending`/`failed` checkpoints are ever
selected for processing — a `completed` checkpoint is never selected;
(2) processing performs exactly the write sequence `in_progress` then
`completed`-or-`failed` on the selected checkpoint; (3) a `completed`
checkpoint's row is left untouched by any processing step (ids being unique),
so it never leaves `completed`. -/
theorem checkpoint_status_machine :
    (∀ t db c, c ∈ getPendingCheckpoints t db →
      c.status = Status.pending ∨ c.status = Status.failed) ∧
    (∀ t B fr oracle now st cp, ∃ w : StatusWrite,
      (processCheckpoint t B fr oracle now st cp).writes =
        [⟨Status.in_progress, 0, none⟩, w] ∧
      (w.status = Status.completed ∨ w.status = Status.failed)) ∧
    (∀ t B fr oracle now st cp c,
      (st.checkpoints.map Checkpoint.id).Nodup →
      cp ∈ getPendingCheckpoints t st.checkpoints →
      c ∈ st.checkpoints → c.status = Status.completed →
      c ∈ (processCheckpoint t B fr oracle now st cp).db) := by
  refine ⟨?_, ?_, ?_⟩
  · intro t db c hc
    exact ((mem_getPendingCheckpoints t db c).mp hc).2.2
  · intro t B fr oracle now st cp
    cases fr with
    | error e => exact ⟨⟨Status.failed, 0, some e⟩, rfl, Or.inr rfl⟩
    | ok rows =>
      by_cases h0 : rows.length = 0
      · exact ⟨⟨Status.completed, 0, none⟩, by simp [processCheckpoint, h0], Or.inl rfl⟩
      · simp only [processCheckpoint, if_neg h0]
        cases hI : (insertBatches t oracle
            (chunks B (if t = "camera_locations" then rows.map transformCameraRow else rows))
            st.dest 0 0).2.2.2 with
        | none => exact ⟨⟨Status.completed, _, none⟩, rfl, Or.inl rfl⟩
        | some m => exact ⟨⟨Status.failed, 0, some m⟩, rfl, Or.inr rfl⟩
  · intro t B fr oracle now st cp c hnd hcp hc hcstat
    have hcpm := (mem_getPendingCheckpoints t st.checkpoints cp).mp hcp
    have hne : c ≠ cp := by
      intro h
      subst h
      rcases hcpm.2.2 with h | h <;> rw [hcstat] at h <;> simp at h
    exact processCheckpoint_mem_ne t B fr oracle now st cp c hc
      (ne_id_of_nodup st.checkpoints hnd c cp hc hcpm.1 hne)

/-- Witness for `checkpoint_status_machine`: a concrete eligible checkpoint
is `pending`; processing it writes `in_progress` then a terminal status; the
completed checkpoint in the same table is untouched. -/
theorem checkpoint_status_machine_witness :
    (demoCheckpoint.status = Status.pending ∨ demoCheckpoint.status = Status.failed) ∧
    (∃ w : StatusWrite,
      (processCheckpoint "camera_locations" 16 (Except.ok (rowsRange 1 5)) (fun _ => none)
        "T" stMixed demoCheckpoint).writes = [⟨Status.in_progress, 0, none⟩, w] ∧
      (w.status = Status.completed ∨ w.status = Status.failed)) ∧
    doneCheckpoint ∈ (processCheckpoint "camera_locations" 16 (Except.ok (rowsRange 1 5))
      (fun _ => none) "T" stMixed demoCheckpoint).db :=
  ⟨checkpoint_status_machine.1 "camera_locations" [demoCheckpoint] demoCheckpoint (by decide),
   checkpoint_status_machine.2.1 "camera_locations" 16 _ _ "T" stMixed demoCheckpoint,
   checkpoint_status_machine.2.2 "camera_locations" 16 _ _ "T" stMixed demoCheckpoint
     doneCheckpoint (by decide) (by decide) (by decide) rfl⟩

/-- **C10**: for any table name other than the two known ones,
`executeBatchInsert` has no branch, so processing inserts nothing (the
destination is unchanged and no insert call is made), yet every fetched row
is counted into `records_processed` and the checkpoint is marked `completed`
— the run reports success while migrating nothing. -/
theorem unknown_table_silent_success (t : String) (B : Nat) (rows : List CameraRow)
    (oracle : Nat → Option String) (now : String) (st : MigState) (cp : Checkpoint)
    (hB : 0 < B) (h1 : t ≠ "coordinate_speed_new") (h2 : t ≠ "camera_locations") :
    (processCheckpoint t B (Except.ok rows) oracle now st cp).dest = st.dest ∧
    (processCheckpoint t B (Except.ok rows) oracle now st cp).sent = [] ∧
    (processCheckpoint t B (Except.ok rows) oracle now st cp).returned =
      Except.ok rows.length ∧
    (processCheckpoint t B (Except.ok rows) oracle now st cp).writes =
      [⟨Status.in_progress, 0, none⟩, ⟨Status.completed, rows.length, none⟩] := by
  have ht : ¬tableIssuesInsert t := by
    intro h
    rcases h with h | h
    · exact h1 h
    · exact h2 h
  by_cases h0 : rows.length = 0
  · simp [processCheckpoint, h0]
  · have hpr : (if t = "camera_locations" then rows.map transformCameraRow else rows) =
        rows := if_neg h2
    have hsum : ((chunks B rows).map List.length).sum = rows.length := by
      rw [← List.length_flatten, chunks_flatten B hB]
    simp only [processCheckpoint, if_neg h0, hpr,
      insertBatches_noop t oracle ht (chunks B rows) st.dest 0 0]
    simp [hsum]

/-- Witness for `unknown_table_silent_success`: table `widgets`, three rows
fetched — nothing inserted, checkpoint completed with
`records_processed = 3`. -/
theorem unknown_table_silent_success_witness :
    (processCheckpoint "widgets" 16 (Except.ok (rowsRange 1 3)) (fun _ => none) "T"
      demoState demoCheckpoint).dest = demoState.dest ∧
    (processCheckpoint "widgets" 16 (Except.ok (rowsRange 1 3)) (fun _ => none) "T"
      demoState demoCheckpoint).sent = [] ∧
    (processCheckpoint "widgets" 16 (Except.ok (rowsRange 1 3)) (fun _ => none) "T"
      demoState demoCheckpoint).returned = Except.ok (rowsRange 1 3).length ∧
    (processCheckpoint "widgets" 16 (Except.ok (rowsRange 1 3)) (fun _ => none) "T"
      demoState demoCheckpoint).writes =
      [⟨Status.in_progress, 0, none⟩, ⟨Status.completed, (rowsRange 1 3).length, none⟩] :=
  unknown_table_silent_success "widgets" 16 (rowsRange 1 3) (fun _ => none) "T"
    demoState demoCheckpoint (by decide) (by decide) (by decide)

/-- **C2, counterexample**: processing checkpoint `[1,20]` with batch size 16
where the first sub-batch insert succeeds (16 rows inserted) and the second
fails: the checkpoint is marked `failed` with `records_processed = 0`, not
16 — `records_processed` does *not* reflect the rows inserted during the
failed attempt (line 325 writes the literal `0`). -/
theorem records_processed_counterexample :
    (processCheckpoint "camera_locations" 16 (Except.ok (rowsRange 1 20)) failSecondBatch
      "T" stAB cpA).dest.length = 16 ∧
    (processCheckpoint "camera_locations" 16 (Except.ok (rowsRange 1 20)) failSecondBatch
      "T" stAB cpA).writes =
      [⟨Status.in_progress, 0, none⟩, ⟨Status.failed, 0, some "D1 API Error"⟩] ∧
    (16 : Nat) ≠ 0 :=
  ⟨by decide, by decide, by decide⟩

/-- **C2, amended**: when a checkpoint completes, `records_processed` equals
the cumulative inserted count (all fetched rows); but when it is marked
`failed`, `records_processed` is written as 0 regardless of how many
sub-batches had already been inserted — the rows of the first `j` sub-batches
remain in the destination while the failed checkpoint records 0. -/
theorem records_processed_semantics (t : String) (B : Nat) (rows : List CameraRow)
    (oracle : Nat → Option String) (now : String) (st : MigState) (cp : Checkpoint)
    (hB : 0 < B) :
    ((∀ j, oracle j = none) →
      (processCheckpoint t B (Except.ok rows) oracle now st cp).returned =
        Except.ok rows.length ∧
      (processCheckpoint t B (Except.ok rows) oracle now st cp).writes.getLast? =
        some ⟨Status.completed, rows.length, none⟩) ∧
    (∀ j m, tableIssuesInsert t →
      oracle j = some m → (∀ k < j, oracle k = none) →
      j < (chunks B
        (if t = "camera_locations" then rows.map transformCameraRow else rows)).length →
      (processCheckpoint t B (Except.ok rows) oracle now st cp).writes.getLast? =
        some ⟨Status.failed, 0, some m⟩ ∧
      (processCheckpoint t B (Except.ok rows) oracle now st cp).dest =
        st.dest ++ ((chunks B
          (if t = "camera_locations" then rows.map transformCameraRow else rows)).take
            j).flatten ∧
      (processCheckpoint t B (Except.ok rows) oracle now st cp).returned =
        Except.error m) := by
  constructor
  · intro h
    by_cases h0 : rows.length = 0
    · simp [processCheckpoint, h0]
    · have hlen : (if t = "camera_locations" then rows.map transformCameraRow
          else rows).length = rows.length := by
        split <;> simp
      have hsum : ((chunks B (if t = "camera_locations" then rows.map transformCameraRow
          else rows)).map List.length).sum = rows.length := by
        rw [← List.length_flatten, chunks_flatten B hB, hlen]
      simp only [processCheckpoint, if_neg h0,
        insertBatches_ok t oracle h _ st.dest 0 0]
      simp [hsum]
  · intro j m ht horacle hprev hj
    have h0 : ¬rows.length = 0 := by
      intro h0
      rw [List.length_eq_zero] at h0
      subst h0
      simp [chunks, chunksAux] at hj
    simp only [processCheckpoint, if_neg h0,
      insertBatches_fail t oracle ht _ st.dest 0 0 j m hj (by simpa using horacle)
        (fun k hk => by simpa using hprev k hk)]
    simp

/-- Witness for `records_processed_semantics`: a clean run records 20; a run
whose second sub-batch fails records the failure write `(failed, 0, msg)`. -/
theorem records_processed_semantics_witness :
    (processCheckpoint "camera_locations" 16 (Except.ok (rowsRange 1 20)) (fun _ => none)
      "T" stAB cpA).returned = Except.ok (rowsRange 1 20).length ∧
    (processCheckpoint "camera_locations" 16 (Except.ok (rowsRange 1 20)) failSecondBatch
      "T" stAB cpA).writes.getLast? = some ⟨Status.failed, 0, some "D1 API Error"⟩ :=
  ⟨((records_processed_semantics "camera_locations" 16 (rowsRange 1 20) (fun _ => none)
      "T" stAB cpA (by decide)).1 (fun _ => rfl)).1,
   ((records_processed_semantics "camera_locations" 16 (rowsRange 1 20) failSecondBatch
      "T" stAB cpA (by decide)).2 1 "D1 API Error" (Or.inr rfl) rfl
      (fun k hk => by
        have hk0 : k = 0 := by omega
        subst hk0
        rfl)
      (by decide)).1⟩

/-- **C3, counterexample**: checkpoint `[21,35]` holds 15 rows, so with batch
size 16 it is inserted as a single batch of 15 — not as batches of 16 and 3
(which would be 19 rows). -/
theorem camera_scenario_counterexample :
    (processCheckpoint "camera_locations" 16 (Except.ok (rowsRange 21 35)) (fun _ => none)
      "T" ⟨procA.db, procA.dest⟩ cpB).sent = [15] ∧
    ([15] : List Nat) ≠ [16, 3] :=
  ⟨by decide, by decide⟩

/-- **C3, amended**: for 35 rows with ids 1–35 and checkpoint size 20,
planning yields exactly the checkpoints `[1,20]` and `[21,35]`; with ceiling
99 and 6 columns the batch size is 16; checkpoint `[1,20]`'s 20 rows are
inserted as batches of 16 and 4; checkpoint `[21,35]`'s 15 rows as a single
batch of 15; all 35 rows land in the destination. -/
theorem camera_scenario :
    initializeCheckpoints true 20 "camera_locations" 1 35 1 [] = [cpA, cpB] ∧
    maxBatchRows 6 99 = 16 ∧
    procA.sent = [16, 4] ∧ procA.returned = Except.ok 20 ∧
    procB.sent = [15] ∧ procB.returned = Except.ok 15 ∧
    procB.dest.length = 35 :=
  ⟨by decide, by decide, by decide, rfl, by decide, rfl, by decide⟩

/-- Rows whose ids never match a processed checkpoint's id survive the whole
run loop untouched. -/
theorem runLoop_mem_preserved (t : String) (B : Nat) (now : String)
    (fetch : Checkpoint → Except String (List CameraRow))
    (oracle : Checkpoint → Nat → Option String) :
    ∀ (ps : List Checkpoint) (st : MigState) (total : Nat) (c : Checkpoint),
      c ∈ st.checkpoints → (∀ p ∈ ps, p.id ≠ c.id) →
      c ∈ (runLoop t B now fetch oracle ps st total).1.checkpoints := by
  intro ps
  induction ps with
  | nil => intro st total c hc _; simpa [runLoop] using hc
  | cons cp rest ih =>
    intro st total c hc hp
    have hne : c.id ≠ cp.id := fun h => hp cp (List.mem_cons_self _ _) h.symm
    have hc1 : c ∈ (processCheckpoint t B (fetch cp) (oracle cp) now st cp).db :=
      processCheckpoint_mem_ne t B (fetch cp) (oracle cp) now st cp c hc hne
    simp only [runLoop]
    cases hret : (processCheckpoint t B (fetch cp) (oracle cp) now st cp).returned with
    | ok n =>
      exact ih ⟨(processCheckpoint t B (fetch cp) (oracle cp) now st cp).db,
        (processCheckpoint t B (fetch cp) (oracle cp) now st cp).dest⟩ (total + n) c hc1
        (fun p hp2 => hp p (List.mem_cons_of_mem _ hp2))
    | error e => exact hc1

/-- If the run loop ends with an error, some processed checkpoint was marked
`failed` with that error recorded (its identity columns intact), and every
later eligible checkpoint's row is exactly as it was when the loop started. -/
theorem runLoop_error (t : String) (B : Nat) (now : String)
    (fetch : Checkpoint → Except String (List CameraRow))
    (oracle : Checkpoint → Nat → Option String) :
    ∀ (ps : List Checkpoint) (st : MigState) (total : Nat) (st' : MigState) (e : String),
      runLoop t B now fetch oracle ps st total = (st', Except.error e) →
      (∀ p ∈ ps, p ∈ st.checkpoints) →
      (ps.map Checkpoint.id).Nodup →
      ∃ j, ∃ hj : j < ps.length,
        (∃ c' ∈ st'.checkpoints,
          c'.id = (ps.get ⟨j, hj⟩).id ∧
          c'.table_name = (ps.get ⟨j, hj⟩).table_name ∧
          c'.status = Status.failed ∧ c'.records_processed = 0 ∧
          c'.error_message = some e) ∧
        (∀ m, ∀ hm : m < ps.length, j < m → ps.get ⟨m, hm⟩ ∈ st'.checkpoints) := by
  intro ps
  induction ps with
  | nil => intro st total st' e hrun; simp [runLoop] at hrun
  | cons cp rest ih =>
    intro st total st' e hrun hmem hnd
    simp only [runLoop] at hrun
    have hcpmem : cp ∈ st.checkpoints := hmem cp (List.mem_cons_self _ _)
    have hndtail : (rest.map Checkpoint.id).Nodup := by
      simp only [List.map_cons, List.nodup_cons] at hnd
      exact hnd.2
    have hheadnotin : cp.id ∉ rest.map Checkpoint.id := by
      simp only [List.map_cons, List.nodup_cons] at hnd
      exact hnd.1
    have hresttne : ∀ p ∈ rest, p.id ≠ cp.id := by
      intro p hp hid
      exact hheadnotin (hid ▸ List.mem_map_of_mem Checkpoint.id hp)
    cases hret : (processCheckpoint t B (fetch cp) (oracle cp) now st cp).returned with
    | ok n =>
      rw [hret] at hrun
      obtain ⟨j, hj, hfail, hlater⟩ := ih
        ⟨(processCheckpoint t B (fetch cp) (oracle cp) now st cp).db,
         (processCheckpoint t B (fetch cp) (oracle cp) now st cp).dest⟩
        (total + n) st' e hrun
        (fun p hp => processCheckpoint_mem_ne t B (fetch cp) (oracle cp) now st cp p
          (hmem p (List.mem_cons_of_mem _ hp)) (hresttne p hp))
        hndtail
      refine ⟨j + 1, Nat.succ_lt_succ hj, ?_, ?_⟩
      · simpa [List.get_cons_succ] using hfail
      · intro m hm hgt
        cases m with
        | zero => omega
        | succ m' =>
          have := hlater m' (Nat.lt_of_succ_lt_succ hm) (Nat.lt_of_succ_lt_succ hgt)
          simpa [List.get_cons_succ] using this
    | error e0 =>
      rw [hret] at hrun
      have hst' : st' = ⟨(processCheckpoint t B (fetch cp) (oracle cp) now st cp).db,
          (processCheckpoint t B (fetch cp) (oracle cp) now st cp).dest⟩ :=
        (congrArg Prod.fst hrun).symm
      have he : e0 = e := by
        have := congrArg Prod.snd hrun
        simpa using this
      subst he
      refine ⟨0, Nat.succ_pos _, ?_, ?_⟩
      · obtain ⟨c', hc', hid, htn, _, _, hstt, hrcs, herr⟩ :=
          processCheckpoint_failed_row t B (fetch cp) (oracle cp) now st cp e0 hcpmem hret
        rw [hst']
        exact ⟨c', hc', hid, htn, hstt, hrcs, herr⟩
      · intro m hm hgt
        cases m with
        | zero => omega
        | succ m' =>
          rw [hst']
          have hmm : m' < rest.length := Nat.lt_of_succ_lt_succ hm
          have hpmem : rest.get ⟨m', hmm⟩ ∈ st.checkpoints :=
            hmem _ (List.mem_cons_of_mem _ (List.get_mem rest m' hmm))
          have := processCheckpoint_mem_ne t B (fetch cp) (oracle cp) now st cp
            (rest.get ⟨m', hmm⟩) hpmem (hresttne _ (List.get_mem rest m' hmm))
          simpa [List.get_cons_succ] using this

/-- **C5**: if processing a checkpoint raises an unrecoverable error, the run
aborts with that error and: the failing checkpoint's row is `failed` with the
error message recorded; every eligible checkpoint after it is untouched (so
it was not processed in this invocation); every previously `completed`
checkpoint is unchanged; and the failed checkpoint is again returned by
`getPendingCheckpoints` on the next invocation. -/
theorem run_abort_on_failure (t : String) (B : Nat) (now : String)
    (fetch : Checkpoint → Except String (List CameraRow))
    (oracle : Checkpoint → Nat → Option String)
    (st st' : MigState) (e : String)
    (hnd : (st.checkpoints.map Checkpoint.id).Nodup)
    (hrun : runLoop t B now fetch oracle (getPendingCheckpoints t st.checkpoints) st 0 =
      (st', Except.error e)) :
    (∀ c ∈ st.checkpoints, c.status = Status.completed → c ∈ st'.checkpoints) ∧
    ∃ j, ∃ hj : j < (getPendingCheckpoints t st.checkpoints).length,
      (∃ c' ∈ st'.checkpoints,
        c'.id = ((getPendingCheckpoints t st.checkpoints).get ⟨j, hj⟩).id ∧
        c'.status = Status.failed ∧ c'.records_processed = 0 ∧
        c'.error_message = some e) ∧
      (∀ m, ∀ hm : m < (getPendingCheckpoints t st.checkpoints).length, j < m →
        (getPendingCheckpoints t st.checkpoints).get ⟨m, hm⟩ ∈ st'.checkpoints) ∧
      (∃ c' ∈ getPendingCheckpoints t st'.checkpoints,
        c'.id = ((getPendingCheckpoints t st.checkpoints).get ⟨j, hj⟩).id ∧
        c'.status = Status.failed) := by
  have hmemps : ∀ p ∈ getPendingCheckpoints t st.checkpoints, p ∈ st.checkpoints :=
    fun p hp => ((mem_getPendingCheckpoints t st.checkpoints p).mp hp).1
  have hndps : ((getPendingCheckpoints t st.checkpoints).map Checkpoint.id).Nodup := by
    unfold getPendingCheckpoints
    exact ((sortByStartId_perm _).map Checkpoint.id).nodup_iff.mpr
      (hnd.sublist ((List.filter_sublist _).map Checkpoint.id))
  constructor
  · intro c hc hcs
    have hne : ∀ p ∈ getPendingCheckpoints t st.checkpoints, p.id ≠ c.id := by
      intro p hp
      have hpm := (mem_getPendingCheckpoints t st.checkpoints p).mp hp
      have hpc : p ≠ c := by
        intro hpc
        subst hpc
        rcases hpm.2.2 with h | h <;> rw [hcs] at h <;> simp at h
      exact ne_id_of_nodup st.checkpoints hnd p c hpm.1 hc hpc
    have hrl := runLoop_mem_preserved t B now fetch oracle
      (getPendingCheckpoints t st.checkpoints) st 0 c hc hne
    rw [hrun] at hrl
    exact hrl
  · obtain ⟨j, hj, ⟨c', hc', hid, htn, hstt, hrcs, herr⟩, hlater⟩ :=
      runLoop_error t B now fetch oracle (getPendingCheckpoints t st.checkpoints) st 0 st' e
        hrun hmemps hndps
    refine ⟨j, hj, ⟨c', hc', hid, hstt, hrcs, herr⟩, hlater, c', ?_, hid, hstt⟩
    rw [mem_getPendingCheckpoints]
    have hjt : ((getPendingCheckpoints t st.checkpoints).get ⟨j, hj⟩).table_name = t :=
      ((mem_getPendingCheckpoints t st.checkpoints _).mp
        (List.get_mem (getPendingCheckpoints t st.checkpoints) j hj)).2.1
    exact ⟨hc', htn.trans hjt, Or.inr hstt⟩

/-- Witness for `run_abort_on_failure`: a one-checkpoint table whose source
fetch fails with "boom"; the checkpoint ends `failed` with the message
recorded and is eligible again afterwards. -/
theorem run_abort_on_failure_witness :
    (∀ c ∈ demoState.checkpoints, c.status = Status.completed →
      c ∈ demoRun.1.checkpoints) ∧
    ∃ j, ∃ hj : j < (getPendingCheckpoints "camera_locations" demoState.checkpoints).length,
      (∃ c' ∈ demoRun.1.checkpoints,
        c'.id = ((getPendingCheckpoints "camera_locations"
          demoState.checkpoints).get ⟨j, hj⟩).id ∧
        c'.status = Status.failed ∧ c'.records_processed = 0 ∧
        c'.error_message = some "boom") ∧
      (∀ m, ∀ hm : m < (getPendingCheckpoints "camera_locations"
          demoState.checkpoints).length, j < m →
        (getPendingCheckpoints "camera_locations" demoState.checkpoints).get ⟨m, hm⟩ ∈
          demoRun.1.checkpoints) ∧
      (∃ c' ∈ getPendingCheckpoints "camera_locations" demoRun.1.checkpoints,
        c'.id = ((getPendingCheckpoints "camera_locations"
          demoState.checkpoints).get ⟨j, hj⟩).id ∧
        c'.status = Status.failed) :=
  run_abort_on_failure "camera_locations" 16 "T" (fun _ => Except.error "boom")
    (fun _ _ => none) demoState demoRun.1 "boom" (by decide) rfl
